import Mathlib

/-!
Verification development for the PacketRusher UE-registration controller
(`server.js`, three variants, plus the single-UE variant and the setup script).

The JavaScript primitives the controller relies on (`Number.prototype.toString`,
`String.prototype.padStart`, `parseInt`) are embedded as executable Lean
functions over `String`/`Int`, with `Option Int` standing for a JS number that
may be `NaN`.  On top of them we embed, from the source:

* the identifier sequencer (`part_000`, `run()`, lines 104-112);
* `updateConfig` (Express variant, server.js lines 607-646);
* the sequential orchestrator loop `runSequentialUEs` (lines 741-791),
  with the per-session process outcomes, the config-patch outcomes and the
  `sessionAborted` flag supplied by an environment;
* the `close`-event outcomes of `runSingleUE` (lines 714-725) and of the
  direct-execution `runPacketRusher` (lines 1488-1513);
* the resolution discipline of `runSingleUE`'s promise (lines 649-738);
* the counter updates of the client-side `runMultiUeSession` (lines 140-158);
* the `/api/sessions/start` handler (lines 833-973) and its validations.
-/

/-! ## JS primitives: digits, decimal rendering, padStart, parseInt -/

/-- The decimal digit character for `d < 10` (as produced by JS
`Number.prototype.toString`). -/
def digitChar (d : Nat) : Char :=
  match d with
  | 0 => '0' | 1 => '1' | 2 => '2' | 3 => '3' | 4 => '4'
  | 5 => '5' | 6 => '6' | 7 => '7' | 8 => '8' | 9 => '9'
  | _ => '*'

/-- Value of a digit character (used by the `parseInt` embedding). -/
def charVal (c : Char) : Nat := c.toNat - 48

/-- Horner evaluation of a most-significant-first digit-character list. -/
def charsVal (l : List Char) : Nat :=
  l.foldl (fun a c => 10 * a + charVal c) 0

/-- Decimal rendering of a natural number, most significant digit first;
`fuel` bounds the recursion depth (any `fuel` with `n < 10 ^ fuel` is enough). -/
def natToCharsAux : Nat → Nat → List Char
  | 0, _ => []
  | fuel + 1, n =>
    if n < 10 then [digitChar n]
    else natToCharsAux fuel (n / 10) ++ [digitChar (n % 10)]

/-- JS `Number.prototype.toString` for a non-negative integer. -/
def natToString (n : Nat) : String := ⟨natToCharsAux (n + 1) n⟩

/-- JS `Number.prototype.toString` for an integer. -/
def intToString (i : Int) : String :=
  if i < 0 then "-" ++ natToString i.natAbs else natToString i.toNat

/-- JS `Number.prototype.toString` where `none` models `NaN`
(`NaN.toString() === "NaN"`). -/
def jsNumToString (x : Option Int) : String :=
  match x with
  | none => "NaN"
  | some i => intToString i

/-- JS `String.prototype.padStart(w, '0')`. -/
def padStart (s : String) (w : Nat) : String :=
  ⟨List.replicate (w - s.length) '0' ++ s.data⟩

/-- Maximal decimal-digit run: JS `parseInt`'s digit consumption.  `none`
models the `NaN` result when no digit is found. -/
def parseDecDigits (cs : List Char) : Option Nat :=
  let ds := cs.takeWhile Char.isDigit
  if ds.isEmpty then none else some (charsVal ds)

/-- Value of a hexadecimal digit character. -/
def hexCharVal (c : Char) : Nat :=
  if c.isDigit then c.toNat - 48
  else if 'a' ≤ c ∧ c ≤ 'f' then c.toNat - 87
  else c.toNat - 55

/-- Hexadecimal digit test (JS `parseInt` accepts both cases after `0x`). -/
def isHexDigitChar (c : Char) : Bool :=
  c.isDigit || ('a' ≤ c && c ≤ 'f') || ('A' ≤ c && c ≤ 'F')

/-- Maximal hexadecimal-digit run (JS `parseInt` after a `0x` marker). -/
def parseHexDigits (cs : List Char) : Option Nat :=
  let ds := cs.takeWhile isHexDigitChar
  if ds.isEmpty then none else some (ds.foldl (fun a c => 16 * a + hexCharVal c) 0)

/-- Unsigned part of JS `parseInt` with no radix argument: a leading `0x`/`0X`
selects base 16, otherwise base 10. -/
def parseUnsigned (cs : List Char) : Option Nat :=
  match cs with
  | c0 :: c1 :: rest =>
    if c0 = '0' ∧ (c1 = 'x' ∨ c1 = 'X') then parseHexDigits rest
    else parseDecDigits (c0 :: c1 :: rest)
  | _ => parseDecDigits cs

/-- JS `parseInt` on a trimmed character list: optional sign, then the
unsigned part. -/
def parseIntRaw (cs : List Char) : Option Int :=
  match cs with
  | [] => none
  | c :: rest =>
    if c = '-' then (parseUnsigned rest).map (fun v => -(v : Int))
    else if c = '+' then (parseUnsigned rest).map (fun v => (v : Int))
    else (parseUnsigned (c :: rest)).map (fun v => (v : Int))

/-- JS `parseInt(s)` (radix unspecified): skip leading spaces, optional sign,
maximal digit run; `none` models `NaN`. -/
def parseIntDec (s : String) : Option Int :=
  parseIntRaw (s.data.dropWhile (fun c => c = ' '))

/-! ### Lemmas about the primitives -/

theorem charVal_digitChar {d : Nat} (h : d < 10) : charVal (digitChar d) = d := by
  interval_cases d <;> decide

theorem isDigit_digitChar {d : Nat} (h : d < 10) : (digitChar d).isDigit = true := by
  interval_cases d <;> decide

theorem natToCharsAux_ne_nil {fuel n : Nat} (h : 0 < fuel) :
    natToCharsAux fuel n ≠ [] := by
  cases fuel with
  | zero => omega
  | succ f =>
    unfold natToCharsAux
    split
    · simp
    · simp

theorem natToCharsAux_digits {fuel n : Nat} :
    ∀ c ∈ natToCharsAux fuel n, c.isDigit = true := by
  induction fuel generalizing n with
  | zero => simp [natToCharsAux]
  | succ f ih =>
    unfold natToCharsAux
    split
    · intro c hc
      rcases List.mem_singleton.mp hc with rfl
      exact isDigit_digitChar (by omega)
    · intro c hc
      rcases List.mem_append.mp hc with h | h
      · exact ih c h
      · rcases List.mem_singleton.mp h with rfl
        exact isDigit_digitChar (Nat.mod_lt _ (by omega))

theorem charsVal_append_singleton (l : List Char) (c : Char) :
    charsVal (l ++ [c]) = 10 * charsVal l + charVal c := by
  simp [charsVal, List.foldl_append]

theorem charsVal_natToCharsAux {fuel n : Nat} (h : n < 10 ^ fuel) :
    charsVal (natToCharsAux fuel n) = n := by
  induction fuel generalizing n with
  | zero => simp [natToCharsAux, charsVal]; simp at h; omega
  | succ f ih =>
    unfold natToCharsAux
    split
    · next h10 => simp [charsVal, charVal_digitChar h10]
    · next h10 =>
      rw [charsVal_append_singleton, ih, charVal_digitChar (Nat.mod_lt _ (by omega))]
      · omega
      · rw [pow_succ] at h
        omega

theorem natToCharsAux_length_le {fuel n k : Nat} (hk : 0 < k) (hn : n < 10 ^ k)
    (hfn : n < 10 ^ fuel) : (natToCharsAux fuel n).length ≤ k := by
  induction fuel generalizing n k with
  | zero => simp [natToCharsAux]
  | succ f ih =>
    unfold natToCharsAux
    split
    · simpa using hk
    · next h10 =>
      have hk2 : 2 ≤ k := by
        by_contra hcon
        have : k = 1 := by omega
        subst this
        simp at hn
        omega
      have hdiv : n / 10 < 10 ^ (k - 1) := by
        rw [Nat.div_lt_iff_lt_mul (by omega)]
        calc n < 10 ^ k := hn
        _ = 10 ^ (k - 1) * 10 := by
            conv_lhs => rw [show k = (k - 1) + 1 by omega]
            ring
      have hfdiv : n / 10 < 10 ^ f := by
        rw [Nat.div_lt_iff_lt_mul (by omega)]
        calc n < 10 ^ (f + 1) := hfn
        _ = 10 ^ f * 10 := by ring
      have := ih (k := k - 1) (by omega) hdiv hfdiv
      simp only [List.length_append, List.length_singleton]
      omega

theorem natToString_length_le {n : Nat} (h : n < 10 ^ 10) :
    (natToString n).length ≤ 10 := by
  have heq : (natToString n).length = (natToCharsAux (n + 1) n).length := rfl
  rw [heq]
  have hself : n < 10 ^ n := Nat.lt_pow_self (by omega) n
  exact natToCharsAux_length_le (by omega) h
    (lt_of_lt_of_le hself (Nat.pow_le_pow_right (by omega) (by omega)))

theorem padStart_length (s : String) (w : Nat) :
    (padStart s w).length = max w s.length := by
  show (List.replicate (w - s.length) '0' ++ s.data).length = _
  simp only [List.length_append, List.length_replicate]
  have : s.length = s.data.length := rfl
  omega

theorem ne_of_isDigit {c : Char} (h : c.isDigit = true) :
    c ≠ '-' ∧ c ≠ '+' ∧ c ≠ 'x' ∧ c ≠ 'X' ∧ c ≠ ' ' := by
  refine ⟨?_, ?_, ?_, ?_, ?_⟩ <;> (rintro rfl; exact absurd h (by decide))

theorem parseDecDigits_all_digits {cs : List Char} (hne : cs ≠ [])
    (h : ∀ c ∈ cs, c.isDigit = true) : parseDecDigits cs = some (charsVal cs) := by
  have htake : cs.takeWhile Char.isDigit = cs := List.takeWhile_eq_self_iff.mpr h
  unfold parseDecDigits
  simp only [htake]
  rw [if_neg (by simpa [List.isEmpty_iff] using hne)]

theorem parseUnsigned_all_digits {cs : List Char} (hne : cs ≠ [])
    (h : ∀ c ∈ cs, c.isDigit = true) : parseUnsigned cs = some (charsVal cs) := by
  match cs with
  | [c] => exact parseDecDigits_all_digits hne h
  | c0 :: c1 :: rest =>
    have h1 := ne_of_isDigit (h c1 (by simp))
    change (if c0 = '0' ∧ (c1 = 'x' ∨ c1 = 'X') then parseHexDigits rest
      else parseDecDigits (c0 :: c1 :: rest)) = _
    rw [if_neg (by tauto)]
    exact parseDecDigits_all_digits hne h

theorem parseIntRaw_all_digits {cs : List Char} (hne : cs ≠ [])
    (h : ∀ c ∈ cs, c.isDigit = true) :
    parseIntRaw cs = some ((charsVal cs : Nat) : Int) := by
  match cs with
  | c :: rest =>
    have hc := ne_of_isDigit (h c (by simp))
    change (if c = '-' then (parseUnsigned rest).map (fun v => -(v : Int))
      else if c = '+' then (parseUnsigned rest).map (fun v => (v : Int))
      else (parseUnsigned (c :: rest)).map (fun v => (v : Int))) = _
    rw [if_neg hc.1, if_neg hc.2.1, parseUnsigned_all_digits hne h]
    rfl

theorem parseIntDec_all_digits {s : String} (hne : s.data ≠ [])
    (h : ∀ c ∈ s.data, c.isDigit = true) :
    parseIntDec s = some ((charsVal s.data : Nat) : Int) := by
  unfold parseIntDec
  have hdrop : s.data.dropWhile (fun c => c = ' ') = s.data := by
    match hd : s.data with
    | [] => rfl
    | c :: rest =>
      rw [List.dropWhile_cons_of_neg]
      have := ne_of_isDigit (h c (by rw [hd]; simp))
      simpa using this.2.2.2.2
  rw [hdrop]
  exact parseIntRaw_all_digits hne h

theorem charsVal_replicate_zero_append (z : Nat) (l : List Char) :
    charsVal (List.replicate z '0' ++ l) = charsVal l := by
  induction z with
  | zero => rfl
  | succ m ih =>
    have : List.replicate (m + 1) '0' ++ l = '0' :: (List.replicate m '0' ++ l) := by
      simp [List.replicate_succ]
    rw [this]
    show List.foldl _ (10 * 0 + charVal '0') _ = _
    have : 10 * 0 + charVal '0' = 0 := by decide
    rw [this]
    exact ih

theorem padStart_data (s : String) (w : Nat) :
    (padStart s w).data = List.replicate (w - s.length) '0' ++ s.data := rfl

/-- Round trip: JS `parseInt` recovers the value that
`n.toString().padStart(10, '0')` renders. -/
theorem parseIntDec_padStart_natToString (n : Nat) :
    parseIntDec (padStart (natToString n) 10) = some (n : Int) := by
  have hdig : ∀ c ∈ (padStart (natToString n) 10).data, c.isDigit = true := by
    rw [padStart_data]
    intro c hc
    rcases List.mem_append.mp hc with h | h
    · rcases List.eq_of_mem_replicate h with rfl
      decide
    · exact natToCharsAux_digits c h
  have hne : (padStart (natToString n) 10).data ≠ [] := by
    rw [padStart_data]
    intro hcon
    rcases List.append_eq_nil.mp hcon with ⟨-, h2⟩
    exact natToCharsAux_ne_nil (by omega) h2
  rw [parseIntDec_all_digits hne hdig]
  rw [padStart_data]
  show some ((charsVal (List.replicate _ '0' ++ (natToCharsAux (n + 1) n)) : Nat) : Int) = _
  rw [charsVal_replicate_zero_append]
  rw [charsVal_natToCharsAux (lt_of_lt_of_le (Nat.lt_pow_self (by omega) n)
    (Nat.pow_le_pow_right (by omega) (by omega)))]

theorem intToString_ofNat (n : Nat) : intToString (n : Int) = natToString n := by
  unfold intToString
  rw [if_neg (by omega)]
  rfl

/-- `n ↦ n.toString().padStart(10, '0')` is injective: staged identifiers
with distinct values are distinct strings. -/
theorem padStart_natToString_injective :
    Function.Injective (fun n : Nat => padStart (natToString n) 10) := by
  intro a b hab
  have ha := parseIntDec_padStart_natToString a
  have hb := parseIntDec_padStart_natToString b
  simp only at hab
  rw [hab, hb] at ha
  have h2 : ((b : Nat) : Int) = ((a : Nat) : Int) := Option.some.inj ha
  omega

/-! ## Identifier sequencer (part_000, `run()`, lines 104-112)

`const msinNumber = parseInt(baseMsin) + runCount;`
`currentMsin = msinNumber.toString().padStart(10, '0');` -/

/-- The sequencer: parse the base with `parseInt`, add the offset, render and
left-pad with `'0'` to width 10.  A non-parseable base propagates `NaN`. -/
def identifierNext (b : String) (k : Nat) : String :=
  padStart (jsNumToString ((parseIntDec b).map (fun v => v + (k : Int)))) 10

/-! ## Configuration document and `updateConfig` (server.js lines 607-646) -/

/-- The `ue` section of `config.yml`; only the `msin` field is ever touched. -/
structure UeSection where
  msin : String
deriving DecidableEq

/-- The `gnodeb.plmnlist` section. -/
structure PlmnList where
  mcc : String
  mnc : String
deriving DecidableEq

/-- The `gnodeb` section. -/
structure GnbSection where
  plmnlist : Option PlmnList
deriving DecidableEq

/-- One entry of the `amfif` array. -/
structure AmfEntry where
  ip : String
  port : Option Int
deriving DecidableEq

/-- The configuration document; `amfif = none` models a value that is not an
array (`Array.isArray` fails). -/
structure Config where
  ue : Option UeSection
  gnodeb : Option GnbSection
  amfif : Option (List AmfEntry)
deriving DecidableEq

/-- `updateConfig(msin, plmnmcc, plmnmnc, amfIP, amfPort)`: `none` models the
`return false` path (missing `ue` section; the caller treats file-system
failures separately).  The `msin` argument is the JS number
`serverState.currentMsin` (`none` = `NaN`). -/
def updateConfig (cfg : Config) (msin : Option Int)
    (plmnmcc plmnmnc amfIP amfPort : String) : Option Config :=
  match cfg.ue with
  | none => none
  | some u =>
    let cfg1 : Config :=
      { cfg with ue := some { u with msin := padStart (jsNumToString msin) 10 } }
    let cfg2 : Config :=
      if plmnmcc ≠ "" ∧ plmnmnc ≠ "" then
        { cfg1 with gnodeb := some { plmnlist := some { mcc := plmnmcc, mnc := plmnmnc } } }
      else cfg1
    let cfg3 : Config :=
      if amfIP ≠ "" ∧ amfPort ≠ "" then
        { cfg2 with amfif := some (match cfg2.amfif with
            | none => [{ ip := amfIP, port := parseIntDec amfPort }]
            | some l => { ip := amfIP, port := parseIntDec amfPort } :: l.tail) }
      else cfg2
    some cfg3

/-- The value of `config.ue.msin`. -/
def msinField (cfg : Config) : String :=
  match cfg.ue with
  | some u => u.msin
  | none => ""

theorem updateConfig_eq {cfg : Config} {u : UeSection} (h : cfg.ue = some u)
    (msin : Option Int) (p q a b : String) :
    ∃ cfg', updateConfig cfg msin p q a b = some cfg' ∧
      cfg'.ue = some { msin := padStart (jsNumToString msin) 10 } := by
  unfold updateConfig
  rw [h]
  dsimp only
  split_ifs <;> exact ⟨_, rfl, rfl⟩

theorem msinField_of_ue {cfg : Config} {u : UeSection} (h : cfg.ue = some u) :
    msinField cfg = u.msin := by
  simp [msinField, h]

/-! ## Sequential orchestrator (`runSequentialUEs`, server.js lines 741-791)

The loop: for `i` in `1..totalUeCount`, break if `sessionAborted`, set
`currentUeIndex = i`, patch the config with the current MSIN (break on
failure), await `runSingleUE(i)`, log the outcome, and increment
`currentMsin` unconditionally.  Process outcomes, file-system patch outcomes
and the abort flag's value at each check are supplied by an environment. -/

/-- Observable orchestration events: a session's Process Runner invocation
starting, and its terminal resolution. -/
inductive SessEvent where
  | start (i : Nat)
  | resolve (i : Nat) (success : Bool)
deriving DecidableEq

/-- Environment of one batch run: `runSuccess i` is the resolved success of
session `i`'s `runSingleUE` invocation, `patchOk i` tells whether the
file-system side of `updateConfig` succeeds for session `i`, `abortedAt i` is
the value of `serverState.sessionAborted` when the check at the top of
iteration `i` runs, and `finalAborted` its value when the summary is logged. -/
structure LoopEnv where
  runSuccess : Nat → Bool
  patchOk : Nat → Bool
  abortedAt : Nat → Bool
  finalAborted : Bool

/-- Mutable state of the loop, plus ghost traces: `staged` records the
successive values written to `config.ue.msin`, `events` the Process Runner
start/resolve events in order. -/
structure LoopAcc where
  cfg : Config
  msin : Option Int
  ueIndex : Nat
  staged : List String
  events : List SessEvent
deriving DecidableEq

/-- One iteration after another of the `for` loop body, from the source. -/
def loopGo (env : LoopEnv) (pmcc pmnc aip aport : String) :
    Nat → Nat → LoopAcc → LoopAcc
  | 0, _, acc => acc
  | rem + 1, i, acc =>
    if env.abortedAt i then acc
    else
      let acc1 : LoopAcc := { acc with ueIndex := i }
      if env.patchOk i then
        match updateConfig acc1.cfg acc1.msin pmcc pmnc aip aport with
        | none => acc1
        | some cfg' =>
          loopGo env pmcc pmnc aip aport rem (i + 1)
            { cfg := cfg'
              msin := acc1.msin.map (fun v => v + 1)
              ueIndex := i
              staged := acc1.staged ++ [msinField cfg']
              events := acc1.events ++
                [SessEvent.start i, SessEvent.resolve i (env.runSuccess i)] }
      else acc1

/-- `runSequentialUEs()`: run the loop from session 1 with
`currentUeIndex = 0` and empty traces. -/
def runSequentialUEs (env : LoopEnv) (total : Nat) (cfg0 : Config)
    (msin0 : Option Int) (pmcc pmnc aip aport : String) : LoopAcc :=
  loopGo env pmcc pmnc aip aport total 1
    { cfg := cfg0, msin := msin0, ueIndex := 0, staged := [], events := [] }

/-- The "Completed k/total" count of the abort-path summary (line 783):
`serverState.currentUeIndex - 1`, logged only when `sessionAborted` is set. -/
def finalSummaryCompleted (env : LoopEnv) (acc : LoopAcc) : Option Int :=
  if env.finalAborted then some ((acc.ueIndex : Int) - 1) else none

/-- The per-session block of the event trace. -/
def sessBlock (env : LoopEnv) (j : Nat) : List SessEvent :=
  [SessEvent.start j, SessEvent.resolve j (env.runSuccess j)]

/-- One unrolling of the loop when the abort flag is clear, the file-system
patch succeeds and the `ue` section is present. -/
theorem loopGo_step {env : LoopEnv} {pmcc pmnc aip aport : String}
    {cfg : Config} {m : Int}
    {cfg' : Config} (hcfg' : updateConfig cfg (some m) pmcc pmnc aip aport = some cfg')
    (rem i : Nat) (idx : Nat) (st : List String) (ev : List SessEvent)
    (hab : env.abortedAt i = false) (hp : env.patchOk i = true) :
    loopGo env pmcc pmnc aip aport (rem + 1) i ⟨cfg, some m, idx, st, ev⟩
      = loopGo env pmcc pmnc aip aport rem (i + 1)
          ⟨cfg', some (m + 1), i, st ++ [msinField cfg'], ev ++ sessBlock env i⟩ := by
  conv_lhs => unfold loopGo
  simp only [hab, hp, Bool.false_eq_true, if_false, if_true, hcfg', sessBlock,
    Option.map_some]
  rfl

/-- Characterization of the loop when no abort is observed and every patch
succeeds: starting at session `i` with MSIN value `m`, it stages the padded
values `m, m+1, ...`, emits start/resolve pairs for sessions `i, i+1, ...` in
order, and leaves the MSIN advanced by the number of iterations —
independently of the per-session success values. -/
theorem loopGo_run (env : LoopEnv) (pmcc pmnc aip aport : String)
    (hab : ∀ i, env.abortedAt i = false) (hp : ∀ i, env.patchOk i = true) :
    ∀ (rem i : Nat) (cfg : Config) (u : UeSection) (m : Int) (idx : Nat)
      (st : List String) (ev : List SessEvent), cfg.ue = some u →
      (∃ uF, ((loopGo env pmcc pmnc aip aport rem i ⟨cfg, some m, idx, st, ev⟩).cfg).ue
          = some uF)
      ∧ (loopGo env pmcc pmnc aip aport rem i ⟨cfg, some m, idx, st, ev⟩).msin
          = some (m + rem)
      ∧ (loopGo env pmcc pmnc aip aport rem i ⟨cfg, some m, idx, st, ev⟩).staged
          = st ++ (List.range rem).map
              (fun k : Nat => padStart (intToString (m + (k : Int))) 10)
      ∧ (loopGo env pmcc pmnc aip aport rem i ⟨cfg, some m, idx, st, ev⟩).events
          = ev ++ (List.range' i rem).flatMap (sessBlock env) := by
  intro rem
  induction rem with
  | zero =>
    intro i cfg u m idx st ev h
    refine ⟨⟨u, h⟩, ?_, ?_, ?_⟩ <;> simp [loopGo]
  | succ rem ih =>
    intro i cfg u m idx st ev h
    obtain ⟨cfg', hcfg', hue'⟩ := updateConfig_eq h (some m) pmcc pmnc aip aport
    rw [loopGo_step hcfg' rem i idx st ev (hab i) (hp i)]
    have hmsin' : msinField cfg' = padStart (intToString m) 10 :=
      msinField_of_ue hue'
    obtain ⟨hueF, hmsinF, hstF, hevF⟩ :=
      ih (i + 1) cfg' _ (m + 1) i (st ++ [msinField cfg'])
        (ev ++ sessBlock env i) hue'
    refine ⟨hueF, ?_, ?_, ?_⟩
    · rw [hmsinF]
      congr 1
      push_cast
      ring
    · rw [hstF, hmsin']
      have hmap : (List.range rem).map
            (fun k : Nat => padStart (intToString (m + 1 + (k : Int))) 10)
          = (List.range rem).map
            ((fun k : Nat => padStart (intToString (m + (k : Int))) 10) ∘ Nat.succ) := by
        apply List.map_congr_left
        intro k hk
        simp only [Function.comp_apply]
        have harith : m + 1 + (k : Int) = m + ((Nat.succ k : Nat) : Int) := by
          push_cast
          ring
        rw [harith]
      rw [hmap, ← List.map_map]
      rw [List.range_succ_eq_map]
      simp only [List.map_cons, Nat.cast_zero, add_zero, List.append_assoc,
        List.singleton_append]
    · rw [hevF, List.range'_succ, List.flatMap_cons]
      simp [List.append_assoc]

/-! ## Process Runner terminal outcomes -/

/-- The value a Process Runner promise resolves with. -/
structure RunOutcome where
  success : Bool
  output : String
  error : String
deriving DecidableEq

/-- `runSingleUE`'s `close` handler (server.js lines 714-725): it resolves
with `success: true` whatever the exit code is. -/
def runSingleUEOnClose (code : Int) (output errorOutput : String) : RunOutcome :=
  { success := true, output := output, error := errorOutput }

/-- `runSingleUE`'s `error` handler (lines 727-737): a launch failure
resolves with `success: false`. -/
def runSingleUEOnError (message : String) : RunOutcome :=
  { success := false
    output := ""
    error := "Failed to start PacketRusher: " ++ message }

/-- The direct-execution `runPacketRusher`'s `close` handler
(server.js lines 1488-1513): `success` is `code === 0`. -/
def runPacketRusherOnClose (sessionNumber ueCount : Nat) (code : Int)
    (output errorOutput : String) : RunOutcome :=
  if code = 0 then
    { success := true
      output := "Session #" ++ natToString sessionNumber
        ++ " completed successfully (" ++ natToString ueCount ++ " UEs)"
      error := "" }
  else
    { success := false
      output := output
      error := if errorOutput = "" then
          "Process exited with code " ++ intToString code
        else errorOutput }

/-! ## Promise resolution discipline of `runSingleUE` (lines 649-738)

The promise resolves exactly when the child's `close` event fires (or when
`spawn` raises an `error`).  The kill timer armed at `timeoutMs` sends one
`SIGTERM` (guarded by `processKilled`) but does not itself resolve the
promise.  A child's observable behavior is abstracted by when it would exit
on its own and whether (and how fast) it dies on `SIGTERM`. -/

/-- Abstracted child-process behavior: `spawnOk = false` models a launch
error; `naturalExit = some t` means the process would exit by itself at time
`t` (milliseconds); `diesOnSigterm` tells whether it honors the termination
signal, after `sigtermDelay` milliseconds. -/
structure ChildBehavior where
  spawnOk : Bool
  naturalExit : Option Nat
  diesOnSigterm : Bool
  sigtermDelay : Nat
deriving DecidableEq

/-- The time at which `runSingleUE`'s promise resolves, `none` if it never
does.  Derived from the source: resolution happens only in the `close` and
`error` handlers; the timer at `timeoutMs` only sends `SIGTERM`. -/
def runSingleUEResolvesAt (timeoutMs : Nat) (c : ChildBehavior) : Option Nat :=
  if c.spawnOk = false then some 0
  else
    match c.naturalExit with
    | some t =>
      if t ≤ timeoutMs then some t
      else some (if c.diesOnSigterm then min t (timeoutMs + c.sigtermDelay) else t)
    | none => if c.diesOnSigterm then some (timeoutMs + c.sigtermDelay) else none

/-! ## Multi-UE client counters (`runMultiUeSession`, server.js lines 140-158)

`if (result.success) { totalUeCount += ueCount; currentMsinBase += ueCount; }` -/

/-- Counter update of one multi-UE client session: the pair
`(currentMsinBase, totalUeCount)` after the session resolves. -/
def runMultiUeSessionAdvance (currentMsinBase totalUeCount ueCount : Int)
    (success : Bool) : Int × Int :=
  if success then (currentMsinBase + ueCount, totalUeCount + ueCount)
  else (currentMsinBase, totalUeCount)

/-! ## The `/api/sessions/start` handler (server.js lines 833-973) -/

/-- `formData.field || ""`. -/
def orEmpty (o : Option String) : String := o.getD ""

/-- `parseInt(formData.ueCount) || 1`: an absent field, a non-numeric string
or `"0"` all coerce to 1. -/
def ueCountOf (o : Option String) : Int :=
  match o with
  | none => 1
  | some s =>
    match parseIntDec s with
    | none => 1
    | some v => if v = 0 then 1 else v

/-- JS `Number(s)` for the strings the handler compares numerically
(`none` = `NaN`): trimmed empty string is 0, otherwise an optionally signed
digit string. -/
def jsStringToNumber (s : String) : Option Int :=
  let cs := ((s.data.dropWhile (fun c => c = ' ')).reverse.dropWhile
    (fun c => c = ' ')).reverse
  match cs with
  | [] => some 0
  | '-' :: rest =>
    if rest ≠ [] ∧ rest.all Char.isDigit then some (-(charsVal rest : Int)) else none
  | '+' :: rest =>
    if rest ≠ [] ∧ rest.all Char.isDigit then some ((charsVal rest : Int)) else none
  | _ => if cs.all Char.isDigit then some ((charsVal cs : Int)) else none

/-- One octet of the `validateIP` regular expression:
`25[0-5] | 2[0-4][0-9] | [01]?[0-9][0-9]?`. -/
def validOctet (cs : List Char) : Bool :=
  match cs with
  | [a] => a.isDigit
  | [a, b] => a.isDigit && b.isDigit
  | [a, b, c] =>
    (a = '2' && b = '5' && ('0' ≤ c && c ≤ '5'))
    || (a = '2' && ('0' ≤ b && b ≤ '4') && c.isDigit)
    || ((a = '0' || a = '1') && b.isDigit && c.isDigit)
  | _ => false

/-- `validateIP` (server.js lines 826-830): four dot-separated octets. -/
def validateIP (s : String) : Bool :=
  match s.data.splitOn '.' with
  | [a, b, c, d] => validOctet a && validOctet b && validOctet c && validOctet d
  | _ => false

/-- The form fields read by the start handler; `none` models an absent
field. -/
structure FormData where
  mcc : Option String
  mnc : Option String
  msinBase : Option String
  ueCount : Option String
  plmnmcc : Option String
  plmnmnc : Option String
  amfIP : Option String
  amfPort : Option String
deriving DecidableEq

/-- The module-level `serverState` object. -/
structure ServerState where
  isRunning : Bool
  currentUeIndex : Nat
  totalUeCount : Int
  currentMsin : Option Int
  mcc : String
  mnc : String
  plmnmcc : String
  plmnmnc : String
  amfIP : String
  amfPort : String
  sessionAborted : Bool
deriving DecidableEq

/-- HTTP-level result of the start handler. -/
inductive StartResult where
  | emptyBody
  | rejected (errors : List String)
  | accepted
deriving DecidableEq

/-- The `validationErrors` array built by the handler (lines 868-908),
in source order. -/
def startValidationErrors (f : FormData) : List String :=
  let mcc := orEmpty f.mcc
  let mnc := orEmpty f.mnc
  let msinBase := orEmpty f.msinBase
  let ueCount := ueCountOf f.ueCount
  let plmnmcc := orEmpty f.plmnmcc
  let plmnmnc := orEmpty f.plmnmnc
  let amfIP := orEmpty f.amfIP
  let amfPort := orEmpty f.amfPort
  (if mcc = "" ∨ mcc.length ≠ 3 then ["MCC must be 3 digits"] else [])
  ++ (if mnc = "" ∨ mnc.length ≠ 2 then ["MNC must be 2 digits"] else [])
  ++ (if msinBase = "" ∨ msinBase.length ≠ 10 then ["MSIN Base must be 10 digits"] else [])
  ++ (if ueCount < 1 ∨ ueCount > 100000 then ["UE Count must be between 1 and 100000"] else [])
  ++ (if plmnmcc ≠ "" ∧ plmnmcc.length ≠ 3 then ["PLMN MCC must be 3 digits"] else [])
  ++ (if plmnmnc ≠ "" ∧ plmnmnc.length ≠ 2 then ["PLMN MNC must be 2 digits"] else [])
  ++ (if amfIP ≠ "" ∧ validateIP amfIP = false then ["AMF IP must be a valid IP address"] else [])
  ++ (if amfPort ≠ "" ∧ (jsStringToNumber amfPort = none
        ∨ ∃ v, jsStringToNumber amfPort = some v ∧ (v < 1 ∨ v > 65535)) then
      ["AMF Port must be between 1-65535"] else [])

instance : Decidable (jsStringToNumber s = none
    ∨ ∃ v, jsStringToNumber s = some v ∧ (v < 1 ∨ v > 65535)) := by
  exact match h : jsStringToNumber s with
    | none => Decidable.isTrue (Or.inl rfl)
    | some v =>
      if hv : v < 1 ∨ v > 65535 then Decidable.isTrue (Or.inr ⟨v, rfl, hv⟩)
      else Decidable.isFalse (by
        rintro (hcon | ⟨w, hw, hcmp⟩)
        · exact Option.noConfusion hcon
        · rw [Option.some.injEq] at hw
          exact hv (hw ▸ hcmp))

/-- The `/api/sessions/start` handler: reject an empty body, collect
validation errors and reject on any, otherwise overwrite `serverState` and
accept.  Note: `serverState.isRunning` is never consulted. -/
def startHandler (st : ServerState) (body : Option FormData) :
    StartResult × ServerState :=
  match body with
  | none => (StartResult.emptyBody, st)
  | some f =>
    if startValidationErrors f ≠ [] then
      (StartResult.rejected (startValidationErrors f), st)
    else
      (StartResult.accepted,
        { isRunning := true
          currentUeIndex := 0
          totalUeCount := ueCountOf f.ueCount
          currentMsin := parseIntDec (orEmpty f.msinBase)
          mcc := orEmpty f.mcc
          mnc := orEmpty f.mnc
          plmnmcc := orEmpty f.plmnmcc
          plmnmnc := orEmpty f.plmnmnc
          amfIP := orEmpty f.amfIP
          amfPort := orEmpty f.amfPort
          sessionAborted := false })

/-- The `/api/sessions/stop` handler (server.js lines 976-1007). -/
def stopHandler (st : ServerState) : ServerState :=
  { st with sessionAborted := true, isRunning := false }

/-! ### Helper lemmas for the claims -/

theorem identifierNext_eq {b : String} {v : Nat}
    (hparse : parseIntDec b = some (v : Int)) (k : Nat) :
    identifierNext b k = padStart (natToString (v + k)) 10 := by
  unfold identifierNext
  rw [hparse]
  show padStart (intToString ((v : Int) + (k : Int))) 10 = _
  have hcast : ((v : Int) + (k : Int)) = ((v + k : Nat) : Int) := by
    push_cast
    ring
  rw [hcast, intToString_ofNat]

/-- Trace shape of the loop for an arbitrary environment: whatever the abort
flag, patch outcomes and process outcomes do, the event trace appended by the
loop is the concatenation of whole per-session blocks for a contiguous range
of sessions starting at the loop's entry index. -/
theorem loopGo_events_shape (env : LoopEnv) (pmcc pmnc aip aport : String) :
    ∀ (rem i : Nat) (acc : LoopAcc),
      ∃ m, (loopGo env pmcc pmnc aip aport rem i acc).events
        = acc.events ++ (List.range' i m).flatMap (sessBlock env) := by
  intro rem
  induction rem with
  | zero =>
    intro i acc
    exact ⟨0, by simp [loopGo]⟩
  | succ rem ih =>
    intro i acc
    by_cases hab : env.abortedAt i = true
    · refine ⟨0, ?_⟩
      conv_lhs => unfold loopGo
      rw [if_pos hab]
      simp
    · by_cases hp : env.patchOk i = true
      · cases hcfg : updateConfig acc.cfg acc.msin pmcc pmnc aip aport with
        | none =>
          refine ⟨0, ?_⟩
          conv_lhs => unfold loopGo
          rw [if_neg hab, if_pos hp]
          simp only [hcfg]
          simp
        | some cfg' =>
          obtain ⟨m, hm⟩ := ih (i + 1)
            { cfg := cfg'
              msin := acc.msin.map (fun v => v + 1)
              ueIndex := i
              staged := acc.staged ++ [msinField cfg']
              events := acc.events ++ [SessEvent.start i, SessEvent.resolve i (env.runSuccess i)] }
          refine ⟨m + 1, ?_⟩
          conv_lhs => unfold loopGo
          rw [if_neg hab, if_pos hp]
          simp only [hcfg]
          rw [hm]
          rw [List.range'_succ, List.flatMap_cons]
          simp [sessBlock, List.append_assoc]
      · refine ⟨0, ?_⟩
        conv_lhs => unfold loopGo
        rw [if_neg hab, if_neg hp]
        simp

/-- In a concatenation of whole per-session blocks for consecutive sessions
starting at `s`, anything left of the start event of session `n + 1` (with
`n ≥ s`) contains the resolve event of session `n`. -/
theorem flatMap_sessBlock_order (env : LoopEnv) :
    ∀ (m s n : Nat) (l1 l2 : List SessEvent),
      (List.range' s m).flatMap (sessBlock env) = l1 ++ SessEvent.start (n + 1) :: l2 →
      s ≤ n → ∃ b, SessEvent.resolve n b ∈ l1 := by
  intro m
  induction m with
  | zero =>
    intro s n l1 l2 h hs
    rw [List.range'_zero, List.flatMap_nil] at h
    exact absurd h.symm (by simp)
  | succ m ih =>
    intro s n l1 l2 h hs
    rw [List.range'_succ, List.flatMap_cons] at h
    rcases l1 with _ | ⟨x, _ | ⟨y, l1'⟩⟩
    · simp only [sessBlock, List.cons_append, List.nil_append, List.cons.injEq,
        SessEvent.start.injEq] at h
      omega
    · simp only [sessBlock, List.cons_append, List.nil_append, List.singleton_append,
        List.cons.injEq] at h
      exact absurd h.2.1 (by simp)
    · simp only [sessBlock, List.cons_append, List.cons.injEq] at h
      obtain ⟨hx, hy, hrest⟩ := h
      by_cases hsn : s = n
      · refine ⟨env.runSuccess s, ?_⟩
        rw [← hy]
        subst hsn
        simp
      · obtain ⟨b, hb⟩ := ih (s + 1) n l1' l2 hrest (by omega)
        exact ⟨b, by simp [hb]⟩

/-! ### Concrete fixtures used by witnesses and counterexamples -/

/-- A configuration document with a `ue` section, as shipped. -/
def cfgDemo : Config :=
  { ue := some { msin := "0000000000" }, gnodeb := none, amfif := none }

/-- Environment: every session succeeds, every patch succeeds, no abort. -/
def envDemo : LoopEnv :=
  { runSuccess := fun _ => true
    patchOk := fun _ => true
    abortedAt := fun _ => false
    finalAborted := false }

/-- Environment: every session FAILS, every patch succeeds, no abort. -/
def envFail : LoopEnv :=
  { runSuccess := fun _ => false
    patchOk := fun _ => true
    abortedAt := fun _ => false
    finalAborted := false }

/-- Environment of the C5 scenario: a stop request lands while session 2 is
in flight, so the abort flag reads true from the check at the top of
iteration 3 onwards, and is still set when the summary is logged. -/
def envStopDuring2 : LoopEnv :=
  { runSuccess := fun _ => true
    patchOk := fun _ => true
    abortedAt := fun i => decide (3 ≤ i)
    finalAborted := true }

/-- An idle server state as at process start. -/
def stIdle : ServerState :=
  { isRunning := false, currentUeIndex := 0, totalUeCount := 0, currentMsin := none
    mcc := "", mnc := "", plmnmcc := "", plmnmnc := "", amfIP := "", amfPort := ""
    sessionAborted := false }

/-- A server state in the middle of an active 5-session batch. -/
def stRunning : ServerState :=
  { isRunning := true, currentUeIndex := 2, totalUeCount := 5, currentMsin := some 100
    mcc := "001", mnc := "01", plmnmcc := "", plmnmnc := "", amfIP := "", amfPort := ""
    sessionAborted := false }

/-- Start request with `ueCount = "0"` and a non-numeric 10-character
`msinBase`. -/
def formZeroCountBadBase : FormData :=
  { mcc := some "001", mnc := some "01", msinBase := some "abcdefghij"
    ueCount := some "0", plmnmcc := none, plmnmnc := none
    amfIP := none, amfPort := none }

/-- A perfectly valid start request for 3 sessions from base 0000000777. -/
def formValid3 : FormData :=
  { mcc := some "001", mnc := some "01", msinBase := some "0000000777"
    ueCount := some "3", plmnmcc := none, plmnmnc := none
    amfIP := none, amfPort := none }

/-- Valid start request except that `ueCount` is the non-numeric `"abc"`. -/
def formNonNumCount : FormData :=
  { mcc := some "001", mnc := some "01", msinBase := some "0000000001"
    ueCount := some "abc", plmnmcc := none, plmnmnc := none
    amfIP := none, amfPort := none }

/-- A child process that ignores `SIGTERM` and never exits on its own. -/
def stubbornChild : ChildBehavior :=
  { spawnOk := true, naturalExit := none, diesOnSigterm := false, sigtermDelay := 0 }

/-! ## Claim theorems -/

/-- C1: for every accepted batch request with 10-digit base identifier `B`
and session count `N`, if no cancellation occurs and every configuration
patch succeeds, the sequence of identifiers staged into `config.ue.msin`
across the batch's `N` sessions is exactly the zero-padded sequence
`[B, B+1, ..., B+N-1]`, with no repeats and no gaps, regardless of whether
each individual session succeeds or fails. -/
theorem spec_c1 (B N : Nat) (hB : B < 10 ^ 10) (env : LoopEnv) (cfg0 : Config)
    (u : UeSection) (hue : cfg0.ue = some u)
    (hab : ∀ i, env.abortedAt i = false) (hp : ∀ i, env.patchOk i = true)
    (pmcc pmnc aip aport : String) :
    (runSequentialUEs env N cfg0 (some (B : Int)) pmcc pmnc aip aport).staged
      = (List.range N).map (fun k : Nat => padStart (natToString (B + k)) 10)
    ∧ (runSequentialUEs env N cfg0 (some (B : Int)) pmcc pmnc aip aport).staged.Nodup := by
  obtain ⟨-, -, hst, -⟩ :=
    loopGo_run env pmcc pmnc aip aport hab hp N 1 cfg0 u (B : Int) 0 [] [] hue
  have hstaged :
      (runSequentialUEs env N cfg0 (some (B : Int)) pmcc pmnc aip aport).staged
        = (List.range N).map (fun k : Nat => padStart (natToString (B + k)) 10) := by
    unfold runSequentialUEs
    rw [hst]
    rw [List.nil_append]
    apply List.map_congr_left
    intro k hk
    have hcast : ((B : Int) + (k : Int)) = ((B + k : Nat) : Int) := by
      push_cast
      ring
    rw [hcast, intToString_ofNat]
  refine ⟨hstaged, ?_⟩
  rw [hstaged]
  have hinj : Function.Injective (fun k : Nat => padStart (natToString (B + k)) 10) := by
    intro a b hab2
    have := padStart_natToString_injective hab2
    omega
  exact (List.nodup_range N).map hinj

/-- C1 witness: a 3-session batch from base 7 stages exactly
0000000007, 0000000008, 0000000009, with no repeats. -/
theorem spec_c1_witness :
    (runSequentialUEs envDemo 3 cfgDemo (some 7) "" "" "" "").staged
      = ["0000000007", "0000000008", "0000000009"]
    ∧ (runSequentialUEs envDemo 3 cfgDemo (some 7) "" "" "" "").staged.Nodup := by
  have h := spec_c1 7 3 (by norm_num) envDemo cfgDemo { msin := "0000000000" } rfl
    (fun i => rfl) (fun i => rfl) "" "" "" ""
  refine ⟨?_, h.2⟩
  rw [show ((7 : Nat) : Int) = (7 : Int) from rfl] at h
  rw [h.1]
  rfl

/-- C2 counterexample: in a 1-session batch whose only session FAILS
(`runSuccess 1 = false`), `serverState.currentMsin` still advances from 5 to
6 — the increment at the bottom of the loop body is unconditional, so "after
a failed session the identifier base is left unchanged" is false. -/
theorem spec_c2_counterexample :
    envFail.runSuccess 1 = false
    ∧ (runSequentialUEs envFail 1 cfgDemo (some 5) "" "" "" "").events
        = [SessEvent.start 1, SessEvent.resolve 1 false]
    ∧ (runSequentialUEs envFail 1 cfgDemo (some 5) "" "" "" "").msin = some 6 :=
  ⟨rfl, rfl, rfl⟩

/-- C2 (amended): in the sequential orchestrator, `serverState.currentMsin`
advances by exactly 1 after every session that runs, regardless of that
session's success or failure (assuming no abort and successful patches, the
final value is `B + N` for any success pattern); only the multi-UE client's
`currentMsinBase` advances — by the batch size — exclusively on success. -/
theorem spec_c2 (B : Int) (N : Nat) (env : LoopEnv) (cfg0 : Config)
    (u : UeSection) (hue : cfg0.ue = some u)
    (hab : ∀ i, env.abortedAt i = false) (hp : ∀ i, env.patchOk i = true)
    (pmcc pmnc aip aport : String) :
    (runSequentialUEs env N cfg0 (some B) pmcc pmnc aip aport).msin = some (B + N)
    ∧ (∀ base tot cnt : Int, (runMultiUeSessionAdvance base tot cnt true).1 = base + cnt)
    ∧ (∀ base tot cnt : Int, (runMultiUeSessionAdvance base tot cnt false).1 = base) := by
  obtain ⟨-, hmsin, -, -⟩ :=
    loopGo_run env pmcc pmnc aip aport hab hp N 1 cfg0 u B 0 [] [] hue
  exact ⟨hmsin, fun base tot cnt => rfl, fun base tot cnt => rfl⟩

/-- C2 witness: a concrete 2-session all-failing batch ends with
`currentMsin = 5 + 2 = 7`, and the multi-UE counters behave as stated. -/
theorem spec_c2_witness :
    (runSequentialUEs envFail 2 cfgDemo (some 5) "" "" "" "").msin = some 7
    ∧ (runMultiUeSessionAdvance 5 0 4 true).1 = 9
    ∧ (runMultiUeSessionAdvance 5 0 4 false).1 = 5 := by
  have h := spec_c2 5 2 envFail cfgDemo { msin := "0000000000" } rfl
    (fun i => rfl) (fun i => rfl) "" "" "" ""
  refine ⟨?_, ?_, h.2.2 5 0 4⟩
  · rw [h.1]
    norm_num
  · rw [h.2.1 5 0 4]
    norm_num

/-- C3 counterexample: the sequencer's output does NOT always keep the
input's string length: `identifierNext "9999999999" 1` is `"10000000000"`,
length 11, while the base has length 10 — `padStart` pads to width 10 but
never truncates. -/
theorem spec_c3_counterexample :
    (identifierNext "9999999999" 1).length ≠ ("9999999999" : String).length := by
  decide

/-- C3 (amended): for every parseable fixed-width decimal base `b` (value
`v`), the composition law `next (next b j) k = next b (j + k)` holds for all
offsets, and `next b k` has the same length as `b` provided `b` has the
sequencer's width 10 and `v + k` still fits in 10 digits; an overflowing
`v + k` lengthens the string instead. -/
theorem spec_c3 (b : String) (v : Nat) (j k : Nat)
    (hparse : parseIntDec b = some (v : Int)) :
    identifierNext (identifierNext b j) k = identifierNext b (j + k)
    ∧ (b.length = 10 → v + k < 10 ^ 10 →
        (identifierNext b k).length = b.length) := by
  constructor
  · have h1 := identifierNext_eq hparse j
    have hparse2 : parseIntDec (identifierNext b j) = some ((v + j : Nat) : Int) := by
      rw [h1]
      exact parseIntDec_padStart_natToString (v + j)
    rw [identifierNext_eq hparse2 k, identifierNext_eq hparse (j + k)]
    rw [show v + j + k = v + (j + k) from by omega]
  · intro hb hlt
    rw [identifierNext_eq hparse k, padStart_length, hb]
    exact Nat.max_eq_left (natToString_length_le hlt)

/-- C3 witness: composition and length preservation at a concrete base. -/
theorem spec_c3_witness :
    identifierNext (identifierNext "0000000005" 2) 3 = identifierNext "0000000005" 5
    ∧ (identifierNext "0000000005" 3).length = ("0000000005" : String).length := by
  have h := spec_c3 "0000000005" 5 2 3 rfl
  exact ⟨h.1, h.2 rfl (by norm_num)⟩

/-- C4: code-bug evidence.  A start request with `ueCount = "0"` and the
non-numeric 10-character `msinBase = "abcdefghij"` is NOT rejected: the
handler accepts it, coerces the count to 1, stores `NaN` (`none`) as
`currentMsin`, and the first configuration patch would stage the literal
string `"0000000NaN"` into `config.ue.msin` — there is no `ValidationError`
and no `InvalidIdentifier` failure. -/
theorem spec_c4 :
    (startHandler stIdle (some formZeroCountBadBase)).1 = StartResult.accepted
    ∧ (startHandler stIdle (some formZeroCountBadBase)).2.currentMsin = none
    ∧ (startHandler stIdle (some formZeroCountBadBase)).2.totalUeCount = 1
    ∧ msinField ((updateConfig cfgDemo
        (startHandler stIdle (some formZeroCountBadBase)).2.currentMsin
        "" "" "" "").getD cfgDemo) = "0000000NaN" :=
  ⟨rfl, rfl, rfl, rfl⟩

/-- C5: code-bug evidence.  With a stop request landing while session 2 of a
5-session batch is in flight (abort observed from the top of iteration 3),
sessions 3-5 indeed never start — the event trace holds exactly the blocks of
sessions 1 and 2 — but the final summary reports `currentUeIndex - 1 = 1`
completed sessions, not the 2 that actually completed. -/
theorem spec_c5 :
    (runSequentialUEs envStopDuring2 5 cfgDemo (some 1) "" "" "" "").events
      = [SessEvent.start 1, SessEvent.resolve 1 true,
         SessEvent.start 2, SessEvent.resolve 2 true]
    ∧ finalSummaryCompleted envStopDuring2
        (runSequentialUEs envStopDuring2 5 cfgDemo (some 1) "" "" "" "")
      = some 1
    ∧ (1 : Int) ≠ 2 :=
  ⟨rfl, rfl, by decide⟩

/-- C6 counterexample: `runSingleUE`'s `close` handler resolves
`success = true` even for exit code 1, so "success equal to (exitCode == 0)"
is false for that Process Runner. -/
theorem spec_c6_counterexample :
    (runSingleUEOnClose 1 "" "").success = true ∧ (1 : Int) ≠ 0 :=
  ⟨rfl, by decide⟩

/-- C6 (amended): the direct-execution `runPacketRusher` resolves with
`success = (exitCode == 0)`, while `runSingleUE` resolves `success = true`
for every exit code (only a launch error yields `success = false`); in both
cases a failed session does not halt the batch — under no abort and
successful patches every session of the batch starts, whatever the
per-session outcomes. -/
theorem spec_c6 (sessionNumber ueCount : Nat) (code : Int) (out err : String)
    (env : LoopEnv) (N : Nat) (cfg0 : Config) (u : UeSection) (B : Int)
    (hue : cfg0.ue = some u) (hab : ∀ i, env.abortedAt i = false)
    (hp : ∀ i, env.patchOk i = true) (pmcc pmnc aip aport : String) :
    (runPacketRusherOnClose sessionNumber ueCount code out err).success
        = decide (code = 0)
    ∧ (runSingleUEOnClose code out err).success = true
    ∧ (runSingleUEOnError out).success = false
    ∧ ∀ j, 1 ≤ j → j ≤ N →
        SessEvent.start j
          ∈ (runSequentialUEs env N cfg0 (some B) pmcc pmnc aip aport).events := by
  refine ⟨?_, rfl, rfl, ?_⟩
  · unfold runPacketRusherOnClose
    by_cases hc : code = 0
    · simp [hc]
    · simp [hc]
  · intro j h1 hN
    obtain ⟨-, -, -, hev⟩ :=
      loopGo_run env pmcc pmnc aip aport hab hp N 1 cfg0 u B 0 [] [] hue
    unfold runSequentialUEs
    rw [hev, List.nil_append]
    rw [List.mem_flatMap]
    refine ⟨j, ?_, by simp [sessBlock]⟩
    rw [List.mem_range']
    exact ⟨j - 1, by omega, by omega⟩

/-- C6 witness: exit code 3 gives a failed outcome from `runPacketRusher`, a
"successful" outcome from `runSingleUE`, and in an all-failing 2-session
batch session 2 still starts. -/
theorem spec_c6_witness :
    (runPacketRusherOnClose 1 2 3 "" "").success = decide ((3 : Int) = 0)
    ∧ (runSingleUEOnClose 3 "" "").success = true
    ∧ (runSingleUEOnError "").success = false
    ∧ SessEvent.start 2 ∈ (runSequentialUEs envFail 2 cfgDemo (some 0) "" "" "" "").events := by
  have h := spec_c6 1 2 3 "" "" envFail 2 cfgDemo { msin := "0000000000" } 0 rfl
    (fun i => rfl) (fun i => rfl) "" "" "" ""
  exact ⟨h.1, h.2.1, h.2.2.1, h.2.2.2 2 (by norm_num) (by norm_num)⟩

/-- C7 counterexample: a child that `spawn`s fine, never exits on its own and
ignores `SIGTERM` makes `runSingleUE`'s promise never resolve at all — the
kill timer only sends `SIGTERM` and nothing else ever calls `resolve` — so
"always resolves within timeoutMs plus a small epsilon" (and "never zero"
resolutions) fails. -/
theorem spec_c7_counterexample :
    runSingleUEResolvesAt 3000 stubbornChild = none := rfl

/-- C7 (amended): the promise resolves at most once (its resolution time is a
single optional value); it fails to resolve exactly when the child spawns,
never exits naturally and ignores `SIGTERM`; and whenever the child honors
`SIGTERM` (within `sigtermDelay`), the invocation resolves by
`timeoutMs + sigtermDelay`. -/
theorem spec_c7 (tm : Nat) (c : ChildBehavior) :
    (runSingleUEResolvesAt tm c = none
      ↔ c.spawnOk = true ∧ c.naturalExit = none ∧ c.diesOnSigterm = false)
    ∧ (c.diesOnSigterm = true →
        ∃ t, runSingleUEResolvesAt tm c = some t ∧ t ≤ tm + c.sigtermDelay) := by
  obtain ⟨sp, ne, ds, sd⟩ := c
  unfold runSingleUEResolvesAt
  dsimp only
  constructor
  · cases sp <;> cases ne <;> cases ds <;> simp
    split <;> simp
  · intro hds
    subst hds
    cases sp with
    | false => exact ⟨0, by simp, by omega⟩
    | true =>
      cases ne with
      | none => exact ⟨tm + sd, by simp, by omega⟩
      | some t =>
        by_cases ht : t ≤ tm
        · exact ⟨t, by simp [ht], by omega⟩
        · refine ⟨min t (tm + sd), ?_, by omega⟩
          simp [ht]

/-- C7 witness: a child that honors `SIGTERM` after 500 ms resolves by
3000 + 500 ms. -/
theorem spec_c7_witness :
    ∃ t, runSingleUEResolvesAt 3000
        { spawnOk := true, naturalExit := none, diesOnSigterm := true, sigtermDelay := 500 }
        = some t ∧ t ≤ 3000 + 500 := by
  have h := spec_c7 3000
    { spawnOk := true, naturalExit := none, diesOnSigterm := true, sigtermDelay := 500 }
  exact h.2 rfl

/-- C8: code-bug evidence.  The start handler never consults
`serverState.isRunning`: a valid start request received while a 5-session
batch is Running (`currentMsin = 100`, `totalUeCount = 5`) is ACCEPTED and
overwrites the active run's state (`totalUeCount` becomes 3, `currentMsin`
becomes 777, `currentUeIndex` resets to 0) — it is not rejected. -/
theorem spec_c8 :
    stRunning.isRunning = true
    ∧ (startHandler stRunning (some formValid3)).1 = StartResult.accepted
    ∧ stRunning.totalUeCount = 5
    ∧ (startHandler stRunning (some formValid3)).2.totalUeCount = 3
    ∧ stRunning.currentMsin = some 100
    ∧ (startHandler stRunning (some formValid3)).2.currentMsin = some 777
    ∧ (startHandler stRunning (some formValid3)).2.currentUeIndex = 0 :=
  ⟨rfl, rfl, rfl, rfl, rfl, rfl, rfl⟩

/-- C9: within one sequential batch — for ANY abort pattern, patch outcomes
and process outcomes — session `n + 1`'s Process Runner invocation never
starts before session `n`'s invocation has resolved: wherever the event trace
splits just before `start (n+1)`, the left part already contains a resolve
event of session `n`. -/
theorem spec_c9 (env : LoopEnv) (N : Nat) (cfg0 : Config) (msin0 : Option Int)
    (pmcc pmnc aip aport : String) (n : Nat) (hn : 1 ≤ n) (l1 l2 : List SessEvent)
    (hsplit : (runSequentialUEs env N cfg0 msin0 pmcc pmnc aip aport).events
        = l1 ++ SessEvent.start (n + 1) :: l2) :
    ∃ b, SessEvent.resolve n b ∈ l1 := by
  obtain ⟨m, hm⟩ := loopGo_events_shape env pmcc pmnc aip aport N 1
    { cfg := cfg0, msin := msin0, ueIndex := 0, staged := [], events := [] }
  unfold runSequentialUEs at hsplit
  rw [hm] at hsplit
  simp only [List.nil_append] at hsplit
  exact flatMap_sessBlock_order env m 1 n l1 l2 hsplit hn

/-- C9 witness: in a concrete 2-session batch, splitting the trace just
before `start 2` finds a resolve event of session 1 on the left. -/
theorem spec_c9_witness :
    ∃ b, SessEvent.resolve 1 b ∈ [SessEvent.start 1, SessEvent.resolve 1 true] := by
  apply spec_c9 envDemo 2 cfgDemo (some 0) "" "" "" "" 1 (by norm_num)
    [SessEvent.start 1, SessEvent.resolve 1 true] [SessEvent.resolve 2 true]
  rfl

/-- C10: a start request whose `ueCount` field is absent, `"0"`, or
non-numeric is NOT rejected (given the other fields pass their checks): the
count coerces to 1 via `parseInt(...) || 1` before the range validation runs,
the handler accepts, and the batch runs with `totalUeCount = 1`. -/
theorem spec_c10 (st : ServerState) (f : FormData)
    (hcount : f.ueCount = none
      ∨ ∃ s, f.ueCount = some s ∧ (parseIntDec s = none ∨ parseIntDec s = some 0))
    (h1 : ¬(orEmpty f.mcc = "" ∨ (orEmpty f.mcc).length ≠ 3))
    (h2 : ¬(orEmpty f.mnc = "" ∨ (orEmpty f.mnc).length ≠ 2))
    (h3 : ¬(orEmpty f.msinBase = "" ∨ (orEmpty f.msinBase).length ≠ 10))
    (h5 : ¬(orEmpty f.plmnmcc ≠ "" ∧ (orEmpty f.plmnmcc).length ≠ 3))
    (h6 : ¬(orEmpty f.plmnmnc ≠ "" ∧ (orEmpty f.plmnmnc).length ≠ 2))
    (h7 : ¬(orEmpty f.amfIP ≠ "" ∧ validateIP (orEmpty f.amfIP) = false))
    (h8 : ¬(orEmpty f.amfPort ≠ "" ∧ (jsStringToNumber (orEmpty f.amfPort) = none
        ∨ ∃ v, jsStringToNumber (orEmpty f.amfPort) = some v ∧ (v < 1 ∨ v > 65535)))) :
    ueCountOf f.ueCount = 1
    ∧ (startHandler st (some f)).1 = StartResult.accepted
    ∧ (startHandler st (some f)).2.totalUeCount = 1 := by
  have hone : ueCountOf f.ueCount = 1 := by
    rcases hcount with h | ⟨s, hs, hp⟩
    · rw [h]
      rfl
    · rcases hp with hp | hp <;> simp [hs, ueCountOf, hp]
  have herr : startValidationErrors f = [] := by
    unfold startValidationErrors
    simp [hone, h1, h2, h3, h5, h6, h7, h8]
  refine ⟨hone, ?_, ?_⟩ <;>
    simp [startHandler, herr, hone]

/-- C10 witness: the concrete request with `ueCount = "abc"` is accepted and
runs a single session. -/
theorem spec_c10_witness :
    ueCountOf formNonNumCount.ueCount = 1
    ∧ (startHandler stIdle (some formNonNumCount)).1 = StartResult.accepted
    ∧ (startHandler stIdle (some formNonNumCount)).2.totalUeCount = 1 := by
  apply spec_c10 stIdle formNonNumCount
  · exact Or.inr ⟨"abc", rfl, Or.inl rfl⟩
  · decide
  · decide
  · decide
  · decide
  · decide
  · decide
  · decide
